import Mathlib

/-!
Shallow embedding of the newear streaming pipeline (audio capture chunking,
transcription backends, fan-out, hooks, file writer) with theorems checking
the specification's claims against the code.
-/

namespace Newear

/-! ## ChunkAssembler: `AudioCapture.get_audio_chunks` (audio/capture.py)

The generator keeps a residual `audio_buffer`; on each frame burst it
concatenates the burst onto the buffer, then repeatedly yields
`audio_buffer[:chunk_size]` and keeps `audio_buffer[chunk_size:]` while the
buffer holds at least `chunk_size` samples.  When capture stops, whatever is
left in the buffer is discarded. -/

/-- The inner `while len(audio_buffer) >= chunk_size` loop: returns the list
of emitted chunks (in order) and the residual buffer. -/
def emitChunks (size : Nat) (buffer : List α) : List (List α) × List α :=
  if h : 0 < size ∧ size ≤ buffer.length then
    let rest := emitChunks size (buffer.drop size)
    (buffer.take size :: rest.1, rest.2)
  else
    ([], buffer)
termination_by buffer.length
decreasing_by
  simp only [List.length_drop]
  omega

/-- `get_audio_chunks` over a whole session: fold the per-burst step
(append burst to residual, emit full chunks) over the arriving bursts,
starting from an empty residual.  Returns all emitted chunks in order and
the residual discarded at shutdown. -/
def get_audio_chunks (size : Nat) (bursts : List (List α)) : List (List α) × List α :=
  bursts.foldl
    (fun st burst =>
      let r := emitChunks size (st.2 ++ burst)
      (st.1 ++ r.1, r.2))
    ([], [])

theorem emitChunks_length_eq (size : Nat) (buffer : List α) :
    ∀ c ∈ (emitChunks size buffer).1, c.length = size := by
  induction buffer using (fun motive ind b => emitChunks.induct (α := α) size motive ind b) with
  | case1 b h ih =>
    intro c hc
    rw [emitChunks, dif_pos h] at hc
    rcases List.mem_cons.mp hc with hc | hc
    · subst hc; exact List.length_take_of_le h.2
    · exact ih c hc
  | case2 b h =>
    intro c hc
    rw [emitChunks, dif_neg h] at hc
    simp at hc

theorem emitChunks_join (size : Nat) (buffer : List α) :
    (emitChunks size buffer).1.flatten ++ (emitChunks size buffer).2 = buffer := by
  induction buffer using (fun motive ind b => emitChunks.induct (α := α) size motive ind b) with
  | case1 b h ih =>
    rw [emitChunks, dif_pos h]
    simpa [List.append_assoc] using congrArg (b.take size ++ ·) ih
  | case2 b h =>
    rw [emitChunks, dif_neg h]
    simp

theorem emitChunks_residual_lt (size : Nat) (buffer : List α) (hs : 0 < size) :
    (emitChunks size buffer).2.length < size := by
  induction buffer using (fun motive ind b => emitChunks.induct (α := α) size motive ind b) with
  | case1 b h ih =>
    rw [emitChunks, dif_pos h]
    exact ih
  | case2 b h =>
    rw [emitChunks, dif_neg h]
    push_neg at h
    exact h hs

theorem get_audio_chunks_invariant (size : Nat) (bursts : List (List α)) (hs : 0 < size) :
    (∀ c ∈ (get_audio_chunks size bursts).1, c.length = size) ∧
    (get_audio_chunks size bursts).1.flatten ++ (get_audio_chunks size bursts).2 = bursts.flatten ∧
    ((bursts ≠ [] → (get_audio_chunks size bursts).2.length < size)) := by
  suffices h : ∀ (st : List (List α) × List α),
      (∀ c ∈ st.1, c.length = size) →
      (bursts ≠ [] → True) →
      let fin := bursts.foldl
        (fun st burst =>
          let r := emitChunks size (st.2 ++ burst)
          (st.1 ++ r.1, r.2)) st
      (∀ c ∈ fin.1, c.length = size) ∧
      fin.1.flatten ++ fin.2 = (st.1.flatten ++ st.2) ++ bursts.flatten ∧
      (bursts ≠ [] → fin.2.length < size) by
    have := h ([], []) (by simp) (fun _ => trivial)
    simpa [get_audio_chunks] using this
  induction bursts with
  | nil =>
    intro st hst _
    simpa using hst
  | cons b bs ih =>
    intro st hst _
    simp only [List.foldl_cons]
    have hstep : ∀ c ∈ (st.1 ++ (emitChunks size (st.2 ++ b)).1), c.length = size := by
      intro c hc
      rcases List.mem_append.mp hc with hc | hc
      · exact hst c hc
      · exact emitChunks_length_eq size _ c hc
    rcases bs.eq_nil_or_concat with hbs | _
    · subst hbs
      refine ⟨hstep, ?_, fun _ => emitChunks_residual_lt size _ hs⟩
      simp only [List.foldl_nil, List.flatten_append, List.flatten_cons, List.flatten_nil]
      have := emitChunks_join size (st.2 ++ b)
      rw [List.append_assoc, this]
      simp [List.append_assoc]
    · have := ih (st.1 ++ (emitChunks size (st.2 ++ b)).1, (emitChunks size (st.2 ++ b)).2)
        hstep (fun _ => trivial)
      refine ⟨this.1, ?_, ?_⟩
      · rw [this.2.1]
        have hj := emitChunks_join size (st.2 ++ b)
        simp only [List.flatten_append, List.flatten_cons]
        rw [List.append_assoc st.1.flatten, hj]
        simp [List.append_assoc]
      · intro _
        rcases bs with _ | ⟨b2, bs2⟩
        · simp only [List.foldl_nil]
          exact emitChunks_residual_lt size _ hs
        · exact this.2.2 (by simp)

/-- C3: the chunk assembler emits chunks of exactly `sample_rate × chunk_duration`
samples, in arrival order with no sample duplicated or dropped (the emitted
chunks joined back together form a prefix of the joined input bursts), and the
only samples not emitted are a tail shorter than one chunk, discarded at
session end and never emitted as a partial chunk. -/
theorem claim_C3_chunk_assembler (size : Nat) (bursts : List (List Rat)) (hs : 0 < size) :
    (∀ c ∈ (get_audio_chunks size bursts).1, c.length = size) ∧
    (get_audio_chunks size bursts).1.flatten ++ (get_audio_chunks size bursts).2 = bursts.flatten ∧
    (bursts ≠ [] → (get_audio_chunks size bursts).2.length < size) :=
  get_audio_chunks_invariant size bursts hs

/-- Witness for C3 at a concrete input: chunk size 3, bursts `[1,2], [3,4,5,6], [7]`
give chunks `[1,2,3], [4,5,6]` and a discarded tail `[7]`. -/
theorem claim_C3_chunk_assembler_witness :
    (0 < 3) ∧
    ((∀ c ∈ (get_audio_chunks 3 [[(1 : Rat), 2], [3, 4, 5, 6], [7]]).1, c.length = 3) ∧
     (get_audio_chunks 3 [[(1 : Rat), 2], [3, 4, 5, 6], [7]]).1.flatten ++
       (get_audio_chunks 3 [[(1 : Rat), 2], [3, 4, 5, 6], [7]]).2 =
       [[(1 : Rat), 2], [3, 4, 5, 6], [7]].flatten ∧
     ([[(1 : Rat), 2], [3, 4, 5, 6], [7]] ≠ ([] : List (List Rat)) →
       (get_audio_chunks 3 [[(1 : Rat), 2], [3, 4, 5, 6], [7]]).2.length < 3)) :=
  ⟨by decide, claim_C3_chunk_assembler 3 [[(1 : Rat), 2], [3, 4, 5, 6], [7]] (by decide)⟩

/-! ## Transcription results and the hook system (hooks/types.py, hooks/manager.py)

`TranscriptionResult` is the dataclass from transcription/whisper_local.py;
timestamps and confidences are modelled as rationals.  A `Hook` carries its
name, its enabled flag (`config.get('enabled', True)`) and an `execute`
function; a raised Python exception with message `e` is modelled as
`Except.error e`. -/

structure TranscriptionResult where
  text : String
  start_time : Rat
  end_time : Rat
  confidence : Rat
  language : Option String
deriving Repr, DecidableEq

structure HookContext where
  transcription_result : TranscriptionResult
  session_start_time : Rat
  chunk_index : Nat
  metadata : List (String × String)
deriving Repr, DecidableEq

structure HookResult where
  success : Bool
  message : Option String
  data : Option (List (String × String))
  error : Option String
deriving Repr, DecidableEq

structure Hook where
  name : String
  enabled : Bool
  execute : HookContext → Except String HookResult

/-- An ASCII apostrophe, as written in the Python f-string
`f"Hook '{hook.name}' raised exception: ..."`. -/
def sq : String := String.singleton (Char.ofNat 39)

/-- The `HookResult` built by `execute_hooks` when a hook raises. -/
def raisedHookResult (name msg : String) : HookResult :=
  { success := false, message := none, data := none,
    error := some ("Hook " ++ sq ++ name ++ sq ++ " raised exception: " ++ msg) }

/-- One iteration of the `for hook in self.hooks` body (the hook is already
known to be enabled): run `hook.execute(context)` and on an exception convert
it into a failed `HookResult`. -/
def runHook (ctx : HookContext) (hook : Hook) : HookResult :=
  match hook.execute ctx with
  | Except.ok r => r
  | Except.error e => raisedHookResult hook.name e

/-- `HookManager.execute_hooks`: iterate over the registered hooks in order,
skipping disabled ones (`if not hook.is_enabled(): continue`), appending one
`HookResult` per executed hook; an exception from `hook.execute` is caught
and appended as a failed result, and iteration continues. -/
def execute_hooks (hooks : List Hook) (ctx : HookContext) : List HookResult :=
  hooks.foldl
    (fun results hook =>
      if !hook.enabled then results
      else results ++ [runHook ctx hook])
    []

theorem execute_hooks_eq_map (hooks : List Hook) (ctx : HookContext) :
    execute_hooks hooks ctx = (hooks.filter (fun h => h.enabled)).map (runHook ctx) := by
  suffices h : ∀ acc : List HookResult,
      hooks.foldl
        (fun results hook =>
          if !hook.enabled then results else results ++ [runHook ctx hook]) acc =
      acc ++ (hooks.filter (fun h => h.enabled)).map (runHook ctx) by
    simpa [execute_hooks] using h []
  induction hooks with
  | nil => intro acc; simp
  | cons h hs ih =>
    intro acc
    simp only [List.foldl_cons]
    cases he : h.enabled with
    | false =>
      rw [if_pos (by simp [he]), ih, List.filter_cons_of_neg (by simp [he])]
    | true =>
      rw [if_neg (by simp [he]), ih, List.filter_cons_of_pos (by simp [he])]
      simp [List.append_assoc]

/-- Concrete data for the hook counterexample. -/
def sampleResult : TranscriptionResult :=
  { text := "hello", start_time := 0, end_time := 1, confidence := 1 / 2, language := none }

def sampleContext : HookContext :=
  { transcription_result := sampleResult, session_start_time := 0,
    chunk_index := 0, metadata := [] }

/-- A registered but disabled hook whose `execute` would raise. -/
def disabledHook : Hook :=
  { name := "disabled", enabled := false, execute := fun _ => Except.error "boom" }

/-- An enabled hook whose `execute` raises. -/
def raisingHook : Hook :=
  { name := "raiser", enabled := true, execute := fun _ => Except.error "boom" }

/-- An enabled hook that does not raise but returns a failed `HookResult`. -/
def failingHook : Hook :=
  { name := "failer", enabled := true,
    execute := fun _ =>
      Except.ok { success := false, message := none, data := none, error := some "bad" } }

/-- C6 counterexample: for the hook list `[disabledHook, raisingHook, failingHook]`
(which contains a hook whose execute raises), `execute_hooks` returns a list of
length 2, not 3 (the disabled hook is skipped, shortening the list), and it
contains two failed entries, not exactly one (a non-raising hook may also
return `success=false`). -/
theorem claim_C6_counterexample :
    ¬ ((execute_hooks [disabledHook, raisingHook, failingHook] sampleContext).length =
        [disabledHook, raisingHook, failingHook].length ∧
       ((execute_hooks [disabledHook, raisingHook, failingHook] sampleContext).filter
          (fun r => !r.success)).length = 1) := by
  intro h
  have h1 := h.1
  simp [execute_hooks, runHook, disabledHook, raisingHook, failingHook] at h1

/-- C6 (amended): `execute_hooks` returns one `HookResult` per *enabled* hook,
in registration order (disabled hooks are skipped, so the list can be shorter
than the full hook list); an enabled hook whose execute raises contributes a
failed entry carrying the exception message at its position among the enabled
hooks, and every subsequent enabled hook is still executed — one hook's
exception never skips or aborts later hooks. -/
theorem claim_C6_hook_isolation :
    ∀ (hooks : List Hook) (ctx : HookContext),
      execute_hooks hooks ctx = (hooks.filter (fun h => h.enabled)).map (runHook ctx) ∧
      ∀ (name msg : String),
        runHook ctx { name := name, enabled := true, execute := fun _ => Except.error msg } =
          raisedHookResult name msg := by
  intro hooks ctx
  exact ⟨execute_hooks_eq_map hooks ctx, fun name msg => rfl⟩

/-! ## HookManager.create_context and the chunk_index counter -/

structure HookManager where
  hooks : List Hook
  session_start_time : Rat
  chunk_index : Nat

/-- `HookManager.__init__`: empty hook list, `chunk_index = 0`. -/
def mkHookManager (t : Rat) : HookManager :=
  { hooks := [], session_start_time := t, chunk_index := 0 }

/-- `HookManager.register_hook`: append to the execution list. -/
def register_hook (m : HookManager) (h : Hook) : HookManager :=
  { m with hooks := m.hooks ++ [h] }

/-- `HookManager.create_context`: build a `HookContext` carrying the current
`chunk_index`, then increment the counter. -/
def create_context (m : HookManager) (result : TranscriptionResult)
    (metadata : List (String × String)) : HookContext × HookManager :=
  ({ transcription_result := result, session_start_time := m.session_start_time,
     chunk_index := m.chunk_index, metadata := metadata },
   { m with chunk_index := m.chunk_index + 1 })

/-- Fold `create_context` over a list of results, collecting the contexts. -/
def create_contexts (m : HookManager) (results : List TranscriptionResult) :
    List HookContext × HookManager :=
  results.foldl
    (fun st r =>
      let c := create_context st.2 r []
      (st.1 ++ [c.1], c.2))
    ([], m)

theorem create_contexts_indices (m : HookManager) (results : List TranscriptionResult) :
    (create_contexts m results).1.map (fun c => c.chunk_index) =
      (List.range results.length).map (fun i => m.chunk_index + i) ∧
    (create_contexts m results).2.chunk_index = m.chunk_index + results.length ∧
    (create_contexts m results).2.hooks = m.hooks := by
  suffices h : ∀ (acc : List HookContext) (m : HookManager),
      ((results.foldl
          (fun st r =>
            let c := create_context st.2 r []
            (st.1 ++ [c.1], c.2)) (acc, m)).1.map (fun c => c.chunk_index) =
        acc.map (fun c => c.chunk_index) ++
          (List.range results.length).map (fun i => m.chunk_index + i)) ∧
      (results.foldl
          (fun st r =>
            let c := create_context st.2 r []
            (st.1 ++ [c.1], c.2)) (acc, m)).2.chunk_index = m.chunk_index + results.length ∧
      (results.foldl
          (fun st r =>
            let c := create_context st.2 r []
            (st.1 ++ [c.1], c.2)) (acc, m)).2.hooks = m.hooks by
    simpa [create_contexts] using h [] m
  induction results with
  | nil => intro acc m; simp
  | cons r rs ih =>
    intro acc m
    simp only [List.foldl_cons]
    have := ih (acc ++ [(create_context m r []).1]) (create_context m r []).2
    refine ⟨?_, ?_, ?_⟩
    · rw [this.1]
      simp [create_context, List.range_succ_eq_map, List.map_map, Function.comp,
        Nat.add_assoc, Nat.add_comm 1]
    · rw [this.2.1]
      simp [create_context]
      omega
    · rw [this.2.2]
      rfl

/-- C7: each `create_context` call increments the manager's `chunk_index` by
exactly 1 and leaves the hook list untouched (so the increment is independent
of how many hooks are registered and of hook outcomes, which `create_context`
never consults); the context produced carries the pre-increment counter, and
starting from a fresh manager the n-th created context carries
`chunk_index = n - 1`, strictly monotonically increasing. -/
theorem claim_C7_chunk_index :
    ∀ (m : HookManager) (result : TranscriptionResult) (meta : List (String × String)),
      ((create_context m result meta).1.chunk_index = m.chunk_index ∧
       (create_context m result meta).2.chunk_index = m.chunk_index + 1 ∧
       (create_context m result meta).2.hooks = m.hooks) ∧
      ∀ (t : Rat) (results : List TranscriptionResult),
        (create_contexts (mkHookManager t) results).1.map (fun c => c.chunk_index) =
          List.range results.length := by
  intro m result meta
  refine ⟨⟨rfl, rfl, rfl⟩, ?_⟩
  intro t results
  have h := (create_contexts_indices (mkHookManager t) results).1
  simpa [mkHookManager] using h


/-- Python `str.strip()`: remove leading and trailing whitespace.  The
embedding uses a structural definition (rather than `String.trim`, which is
defined by well-founded recursion and does not reduce inside the kernel) so
that witnesses evaluate. -/
def stripChars (s : List Char) : List Char :=
  ((s.dropWhile Char.isWhitespace).reverse.dropWhile Char.isWhitespace).reverse

def pyStrip (s : String) : String := String.mk (stripChars s.data)

/-! ## Energy gate and `transcribe_chunk_stream`
(transcription/whisper_local.py and transcription/remote_whisper.py — the two
method bodies are identical)

The gate computes `rms = sqrt(mean(chunk ** 2))` and skips the chunk when
`rms < 0.001`.  Over the rationals, for a nonempty chunk
`sqrt(sumSq/len) < 1/1000  ⟺  sumSq * 1000000 < len`; for an empty chunk
numpy yields `nan` and `nan < 0.001` is false, matching `0 < 0` being false
here, so the comparison below is faithful for every chunk length. -/

def sumSq (chunk : List Rat) : Rat := (chunk.map (fun x => x * x)).sum

/-- `rms < 0.001` from the source, expressed without square roots. -/
def rmsBelowThreshold (chunk : List Rat) : Bool :=
  decide (sumSq chunk * 1000000 < (chunk.length : Rat))

/-- One iteration of the `for chunk in audio_chunks` body: skip `None`
chunks, skip chunks below the energy gate without invoking the backend, and
otherwise call `transcribe_audio` (the `backend` argument) and yield its
result only when it is non-`None` with non-empty stripped text.  The state is
(yielded results so far, chunks passed to the backend so far). -/
def streamStep (backend : List Rat → Option TranscriptionResult)
    (st : List TranscriptionResult × List (List Rat)) (oc : Option (List Rat)) :
    List TranscriptionResult × List (List Rat) :=
  match oc with
  | none => st
  | some chunk =>
    if rmsBelowThreshold chunk then st
    else
      match backend chunk with
      | some r =>
        if pyStrip r.text = "" then (st.1, st.2 ++ [chunk])
        else (st.1 ++ [r], st.2 ++ [chunk])
      | none => (st.1, st.2 ++ [chunk])

/-- `transcribe_chunk_stream`: if the model is not loaded and loading fails,
yield nothing; otherwise run `streamStep` over the incoming chunks. -/
def transcribe_chunk_stream (loadOk : Bool)
    (backend : List Rat → Option TranscriptionResult)
    (chunks : List (Option (List Rat))) :
    List TranscriptionResult × List (List Rat) :=
  if !loadOk then ([], [])
  else chunks.foldl (streamStep backend) ([], [])

/-- What a backend call on one chunk contributes to the yielded stream. -/
def yieldOf (backend : List Rat → Option TranscriptionResult) (chunk : List Rat) :
    Option TranscriptionResult :=
  match backend chunk with
  | some r => if pyStrip r.text = "" then none else some r
  | none => none

theorem streamStep_characterization (backend : List Rat → Option TranscriptionResult)
    (st : List TranscriptionResult × List (List Rat)) (oc : Option (List Rat)) :
    (streamStep backend st oc).2 =
      st.2 ++ ((oc.toList).filter (fun c => !rmsBelowThreshold c)) ∧
    (streamStep backend st oc).1 =
      st.1 ++ (((oc.toList).filter (fun c => !rmsBelowThreshold c)).filterMap
        (yieldOf backend)) := by
  cases oc with
  | none => simp [streamStep]
  | some chunk =>
    cases hg : rmsBelowThreshold chunk with
    | true => simp [streamStep, hg]
    | false =>
      simp only [streamStep, hg, Bool.false_eq_true, if_false, Option.toList_some,
        List.filter_cons, Bool.not_false, List.filter_nil]
      cases hb : backend chunk with
      | none => simp [yieldOf, hb]
      | some r =>
        by_cases ht : pyStrip r.text = "" <;> simp [yieldOf, hb, ht]

theorem transcribe_chunk_stream_characterization
    (backend : List Rat → Option TranscriptionResult)
    (chunks : List (Option (List Rat))) :
    (transcribe_chunk_stream true backend chunks).2 =
      (chunks.filterMap id).filter (fun c => !rmsBelowThreshold c) ∧
    (transcribe_chunk_stream true backend chunks).1 =
      ((chunks.filterMap id).filter (fun c => !rmsBelowThreshold c)).filterMap
        (yieldOf backend) := by
  suffices h : ∀ st : List TranscriptionResult × List (List Rat),
      (chunks.foldl (streamStep backend) st).2 =
        st.2 ++ (chunks.filterMap id).filter (fun c => !rmsBelowThreshold c) ∧
      (chunks.foldl (streamStep backend) st).1 =
        st.1 ++ ((chunks.filterMap id).filter (fun c => !rmsBelowThreshold c)).filterMap
          (yieldOf backend) by
    have := h ([], [])
    constructor
    · simpa [transcribe_chunk_stream] using this.1
    · simpa [transcribe_chunk_stream] using this.2
  induction chunks with
  | nil => intro st; simp
  | cons oc ocs ih =>
    intro st
    simp only [List.foldl_cons]
    have hstep := streamStep_characterization backend st oc
    have := ih (streamStep backend st oc)
    refine ⟨?_, ?_⟩
    · rw [this.1, hstep.1]
      cases oc with
      | none => simp
      | some c =>
        cases hg : rmsBelowThreshold c <;> simp [hg, List.append_assoc]
    · rw [this.2, hstep.2]
      cases oc with
      | none => simp
      | some c =>
        cases hg : rmsBelowThreshold c <;>
          simp [hg, List.append_assoc, ← List.filterMap_append]

theorem yieldOf_some_trim (backend : List Rat → Option TranscriptionResult)
    (c : List Rat) (r : TranscriptionResult) (h : yieldOf backend c = some r) :
    ¬ pyStrip r.text = "" := by
  unfold yieldOf at h
  cases hb : backend c with
  | none => rw [hb] at h; exact absurd h (by simp)
  | some r0 =>
    rw [hb] at h
    by_cases ht : pyStrip r0.text = ""
    · simp [ht] at h
    · simp [ht] at h
      subst h
      exact ht

/-- C4: for every chunk below the RMS energy threshold the backend is never
invoked and no result is yielded for it (the backend-call list is exactly the
non-gated, non-`None` chunks in arrival order, so every called chunk fails the
gate test), and every yielded result has non-empty stripped text (the yielded
results are exactly the non-`None`, non-blank outputs of the backend on the
called chunks, in order). -/
theorem claim_C4_energy_gate (backend : List Rat → Option TranscriptionResult)
    (chunks : List (Option (List Rat))) :
    (transcribe_chunk_stream true backend chunks).2 =
      (chunks.filterMap id).filter (fun c => !rmsBelowThreshold c) ∧
    ((transcribe_chunk_stream true backend chunks).2.all
      (fun c => !rmsBelowThreshold c)) = true ∧
    (transcribe_chunk_stream true backend chunks).1 =
      (transcribe_chunk_stream true backend chunks).2.filterMap (yieldOf backend) ∧
    ((transcribe_chunk_stream true backend chunks).1.all
      (fun r => !(pyStrip r.text == ""))) = true := by
  have h := transcribe_chunk_stream_characterization backend chunks
  refine ⟨h.1, ?_, ?_, ?_⟩
  · rw [h.1]
    simp only [List.all_eq_true]
    intro c hc
    exact (List.mem_filter.mp hc).2
  · rw [h.1, h.2]
  · rw [h.2]
    simp only [List.all_eq_true]
    intro r hr
    rcases List.mem_filterMap.mp hr with ⟨c, _, hyc⟩
    simpa using yieldOf_some_trim backend c r hyc

/-! ## Transcription backends: `transcribe_audio` and `load_model`
(transcription/whisper_local.py, transcription/remote_whisper.py)

A Python exception raised by a collaborator (the network, the codec, the
model) is modelled as `Except.error msg`; the environment records what each
collaborator call would do during one `transcribe_audio` or `load_model`
call.  The embedded functions are total: every internal failure is mapped to
a `None` result (never an escaping exception), which is what the theorems
below check path by path. -/

inductive Protocol where
  | http
  | websocket
deriving Repr, DecidableEq

/-- One latency sample recorded and the list trimmed to the 20 most recent
(`self.transcription_times.append(...)` followed by
`if len(...) > 20: ... = ...[-20:]`). -/
def appendCapped (times : List Rat) (t : Rat) : List Rat :=
  let ts := times ++ [t]
  if ts.length > 20 then ts.drop (ts.length - 20) else ts

/-- The JSON `result` object of a server response; `none` models a missing
key (`result_data.get(key, default)` supplies the default). -/
structure RemoteResultData where
  text : Option String
  start_time : Option Rat
  end_time : Option Rat
  confidence : Option Rat
  language : Option String
deriving Repr, DecidableEq

def emptyResultData : RemoteResultData :=
  { text := none, start_time := none, end_time := none,
    confidence := none, language := none }

/-- The server response schema `{success, result?, error?}`. -/
structure ResponseData where
  success : Bool
  result : Option RemoteResultData
  error : Option String
deriving Repr, DecidableEq

/-- `RemoteWhisperTranscriber._decode_response`: `None` unless `success` is
truthy and `result.text` is truthy; missing numeric fields default to `0.0`,
missing confidence to `0.8`, missing language to `self.language`. -/
def decode_response (selfLanguage : Option String) (rd : ResponseData) :
    Option TranscriptionResult :=
  if !rd.success then none
  else
    let result_data := rd.result.getD emptyResultData
    match result_data.text with
    | none => none
    | some t =>
      if t = "" then none
      else
        some { text := t,
               start_time := result_data.start_time.getD 0,
               end_time := result_data.end_time.getD 0,
               confidence := result_data.confidence.getD (4 / 5),
               language := match result_data.language with
                           | some l => some l
                           | none => selfLanguage }

/-- What the HTTP POST to `/transcribe` does. -/
inductive HttpOutcome where
  | timeout
  | connError
  | otherExn (msg : String)
  | response (status : Nat) (body : Except String ResponseData)
deriving Repr

/-- What the WebSocket send/receive does.  The reader thread only enqueues
already-decoded non-`None` results, so a delivered response is a
`TranscriptionResult`. -/
inductive WsOutcome where
  | sendExn (msg : String)
  | timeout
  | response (r : TranscriptionResult)
deriving Repr, DecidableEq

structure RemoteState where
  is_loaded : Bool
  ws_running : Bool
  transcription_times : List Rat
deriving Repr, DecidableEq

/-- The collaborator behaviour during one `transcribe_audio` call. -/
structure RemoteEnv where
  loadOutcome : Bool
  encodeOutcome : Except String Unit
  httpOutcome : HttpOutcome
  wsSetupOk : Bool
  wsOutcome : WsOutcome
  latency : Rat

/-- `RemoteWhisperTranscriber.transcribe_audio`.  Every raise inside the
`try` (encode, request, `response.json()`, send) is caught by one of the
`except` clauses and converted to `None`; a non-200 status logs and returns
`None`; only a decoded result records a latency sample — capped to the last
20 on the HTTP path, uncapped on the WebSocket path. -/
def remote_transcribe_audio (proto : Protocol) (lang : Option String)
    (st : RemoteState) (env : RemoteEnv) :
    Option TranscriptionResult × RemoteState :=
  if !st.is_loaded && !env.loadOutcome then (none, st)
  else
    let st := { st with is_loaded := true }
    match env.encodeOutcome with
    | Except.error _ => (none, st)
    | Except.ok _ =>
      match proto with
      | Protocol.http =>
        match env.httpOutcome with
        | HttpOutcome.timeout => (none, st)
        | HttpOutcome.connError => (none, st)
        | HttpOutcome.otherExn _ => (none, st)
        | HttpOutcome.response status body =>
          if status == 200 then
            match body with
            | Except.error _ => (none, st)
            | Except.ok rd =>
              match decode_response lang rd with
              | some r =>
                (some r, { st with transcription_times :=
                    (appendCapped st.transcription_times env.latency) })
              | none => (none, st)
          else (none, st)
      | Protocol.websocket =>
        if !st.ws_running && !env.wsSetupOk then (none, st)
        else
          let st := { st with ws_running := true }
          match env.wsOutcome with
          | WsOutcome.sendExn _ => (none, st)
          | WsOutcome.timeout => (none, st)
          | WsOutcome.response r =>
            (some r, { st with transcription_times :=
                (st.transcription_times ++ [env.latency]) })

/-- One segment returned by the local faster-whisper model; `stop` is the
`end` attribute of the source (`end` is reserved in Lean). -/
structure Segment where
  text : String
  start : Rat
  stop : Rat
  avg_logprob : Rat
deriving Repr, DecidableEq

structure LocalState where
  is_loaded : Bool
  transcription_times : List Rat
deriving Repr, DecidableEq

/-- The collaborator behaviour during one local `transcribe_audio` call:
whether `load_model` would succeed, what `model.transcribe` returns (or
raises), the detected language, and the measured latency. -/
structure LocalEnv where
  loadOutcome : Bool
  transcribeOutcome : Except String (List Segment)
  infoLanguage : Option String
  latency : Rat

/-- `WhisperTranscriber.transcribe_audio`: a raise from `model.transcribe`
is caught and becomes `None`; empty segment lists and blank joined text give
`None`; otherwise the segments are joined with single spaces, the time
extent is `[first.start, last.end]`, the confidence is
`clamp((avg_logprob + 1)/2, 0, 1)`, and a latency sample is recorded with
the 20-entry cap. -/
def whisper_transcribe_audio (st : LocalState) (env : LocalEnv) :
    Option TranscriptionResult × LocalState :=
  if !st.is_loaded && !env.loadOutcome then (none, st)
  else
    let st := { st with is_loaded := true }
    match env.transcribeOutcome with
    | Except.error _ => (none, st)
    | Except.ok segs =>
      if segs.isEmpty then (none, st)
      else
        let full_text := " ".intercalate (segs.map (fun s => pyStrip s.text))
        if pyStrip full_text = "" then (none, st)
        else
          let start_seg_time := (segs.head?.map (fun s => s.start)).getD 0
          let end_seg_time := (segs.getLast?.map (fun s => s.stop)).getD 0
          let avg_confidence := (segs.map (fun s => s.avg_logprob)).sum / segs.length
          let confidence := min 1 (max 0 ((avg_confidence + 1) / 2))
          (some { text := full_text, start_time := start_seg_time,
                  end_time := end_seg_time, confidence := confidence,
                  language := env.infoLanguage },
           { st with transcription_times :=
               (appendCapped st.transcription_times env.latency) })

/-- `get_performance_stats` average: 0 with no samples, else the mean of the
stored latency list. -/
def avg_transcription_time (times : List Rat) : Rat :=
  if times.isEmpty then 0 else times.sum / times.length


/-- C5: `transcribe_audio` never lets an internal failure escape as an
exception: for every chunk environment, an encode failure, a request timeout,
a network error, any other raise, a non-2xx HTTP response, a failed JSON
decode, a WebSocket setup failure / send failure / response timeout, and a
raise inside the local model all return `None`; on an HTTP 200 the returned
value is exactly `_decode_response` of the body (so at most one
`TranscriptionResult` is returned per chunk). -/
theorem claim_C5_transcribe_audio_total
    (proto : Protocol) (lang : Option String) (st : RemoteState)
    (lst : LocalState) (lo : Bool) (msg : String) (ho : HttpOutcome)
    (wsOk : Bool) (wso : WsOutcome) (lat : Rat) (status : Nat)
    (body : Except String ResponseData) (rd : ResponseData)
    (linfo : Option String) (lseg : Except String (List Segment)) :
    (remote_transcribe_audio proto lang st
      ⟨lo, Except.error msg, ho, wsOk, wso, lat⟩).1 = none ∧
    (remote_transcribe_audio Protocol.http lang st
      ⟨lo, Except.ok (), HttpOutcome.timeout, wsOk, wso, lat⟩).1 = none ∧
    (remote_transcribe_audio Protocol.http lang st
      ⟨lo, Except.ok (), HttpOutcome.connError, wsOk, wso, lat⟩).1 = none ∧
    (remote_transcribe_audio Protocol.http lang st
      ⟨lo, Except.ok (), HttpOutcome.otherExn msg, wsOk, wso, lat⟩).1 = none ∧
    (status ≠ 200 →
      (remote_transcribe_audio Protocol.http lang st
        ⟨lo, Except.ok (), HttpOutcome.response status body, wsOk, wso, lat⟩).1 = none) ∧
    (remote_transcribe_audio Protocol.http lang st
      ⟨lo, Except.ok (), HttpOutcome.response 200 (Except.error msg), wsOk, wso, lat⟩).1
      = none ∧
    (remote_transcribe_audio Protocol.http lang st
      ⟨lo, Except.ok (), HttpOutcome.response 200 (Except.ok rd), wsOk, wso, lat⟩).1
      = (if !st.is_loaded && !lo then none else decode_response lang rd) ∧
    (remote_transcribe_audio Protocol.websocket lang
      { st with ws_running := false } ⟨lo, Except.ok (), ho, false, wso, lat⟩).1 = none ∧
    (remote_transcribe_audio Protocol.websocket lang st
      ⟨lo, Except.ok (), ho, wsOk, WsOutcome.timeout, lat⟩).1 = none ∧
    (remote_transcribe_audio Protocol.websocket lang st
      ⟨lo, Except.ok (), ho, wsOk, WsOutcome.sendExn msg, lat⟩).1 = none ∧
    (whisper_transcribe_audio lst ⟨lo, Except.error msg, linfo, lat⟩).1 = none ∧
    (whisper_transcribe_audio { lst with is_loaded := false }
      ⟨false, lseg, linfo, lat⟩).1 = none := by
  refine ⟨?_, ?_, ?_, ?_, ?_, ?_, ?_, ?_, ?_, ?_, ?_, ?_⟩
  · unfold remote_transcribe_audio
    split
    · rfl
    · cases proto <;> rfl
  · unfold remote_transcribe_audio
    split <;> rfl
  · unfold remote_transcribe_audio
    split <;> rfl
  · unfold remote_transcribe_audio
    split <;> rfl
  · intro hstatus
    unfold remote_transcribe_audio
    split
    · rfl
    · simp only []
      rw [if_neg (by simpa using hstatus)]
  · unfold remote_transcribe_audio
    split <;> rfl
  · unfold remote_transcribe_audio
    by_cases hcond : (!st.is_loaded && !lo) = true
    · simp [hcond]
    · simp only [hcond, Bool.false_eq_true, if_false, if_neg hcond]
      cases hd : decode_response lang rd <;> simp [hd]
  · unfold remote_transcribe_audio
    split <;> rfl
  · unfold remote_transcribe_audio
    split
    · rfl
    · simp only []
      split
      · rfl
      · rfl
  · unfold remote_transcribe_audio
    split
    · rfl
    · simp only []
      split
      · rfl
      · rfl
  · unfold whisper_transcribe_audio
    split <;> rfl
  · unfold whisper_transcribe_audio
    rw [if_pos (by simp)]

/-- Witness for C5 at concrete inputs, discharging the `status ≠ 200`
hypothesis with an HTTP 500. -/
theorem claim_C5_transcribe_audio_total_witness :
    (500 ≠ 200) ∧
    (remote_transcribe_audio Protocol.http none
      ⟨true, true, []⟩
      ⟨true, Except.ok (), HttpOutcome.response 500 (Except.error "boom"),
       true, WsOutcome.timeout, 1⟩).1 = none :=
  ⟨by decide,
   ((claim_C5_transcribe_audio_total Protocol.http none ⟨true, true, []⟩
      ⟨true, []⟩ true "boom"
      (HttpOutcome.response 500 (Except.error "boom")) true WsOutcome.timeout 1 500
      (Except.error "boom") ⟨true, none, none⟩ none
      (Except.ok [])).2.2.2.2.1 (by decide))⟩

/-! ## Claim C8: the latency rolling window -/

theorem appendCapped_length (ts : List Rat) (t : Rat) :
    (appendCapped ts t).length = min (ts.length + 1) 20 := by
  unfold appendCapped
  by_cases h : (ts ++ [t]).length > 20
  · rw [if_pos h]
    simp at h ⊢
    omega
  · rw [if_neg h]
    simp at h ⊢
    omega

theorem appendCapped_eq_drop (ts : List Rat) (t : Rat) :
    appendCapped ts t = (ts ++ [t]).drop (ts.length + 1 - 20) := by
  unfold appendCapped
  by_cases h : (ts ++ [t]).length > 20
  · rw [if_pos h]
    simp
  · rw [if_neg h]
    simp at h
    have : ts.length + 1 - 20 = 0 := by omega
    simp [this]

/-- The HTTP path records a latency (capped at 20) exactly when a result is
returned, and otherwise leaves the list unchanged. -/
theorem remote_http_times (lang : Option String) (st : RemoteState) (env : RemoteEnv) :
    (remote_transcribe_audio Protocol.http lang st env).2.transcription_times =
      (match (remote_transcribe_audio Protocol.http lang st env).1 with
       | some _ => appendCapped st.transcription_times env.latency
       | none => st.transcription_times) := by
  obtain ⟨lo, enc, ho, wsOk, wso, lat⟩ := env
  unfold remote_transcribe_audio
  by_cases h1 : (!st.is_loaded && !lo) = true
  · simp [h1]
  · simp only [h1, Bool.false_eq_true, if_false, if_neg h1]
    cases enc with
    | error e => rfl
    | ok u =>
      cases ho with
      | timeout => rfl
      | connError => rfl
      | otherExn m => rfl
      | response status body =>
        by_cases hs : (status == 200) = true
        · simp only [hs, if_true, if_pos hs]
          cases body with
          | error e => rfl
          | ok rd =>
            cases hd : decode_response lang rd <;> simp [hd]
        · simp only [hs, Bool.false_eq_true, if_false, if_neg hs]

/-- The WebSocket path records a latency WITHOUT the 20-entry cap exactly
when a result is returned. -/
theorem remote_ws_times (lang : Option String) (st : RemoteState) (env : RemoteEnv) :
    (remote_transcribe_audio Protocol.websocket lang st env).2.transcription_times =
      (match (remote_transcribe_audio Protocol.websocket lang st env).1 with
       | some _ => st.transcription_times ++ [env.latency]
       | none => st.transcription_times) := by
  obtain ⟨lo, enc, ho, wsOk, wso, lat⟩ := env
  unfold remote_transcribe_audio
  by_cases h1 : (!st.is_loaded && !lo) = true
  · simp [h1]
  · simp only [h1, Bool.false_eq_true, if_false, if_neg h1]
    cases enc with
    | error e => rfl
    | ok u =>
      by_cases h2 : (!st.ws_running && !wsOk) = true
      · simp only [h2, if_true, if_pos h2]
      · simp only [h2, Bool.false_eq_true, if_false, if_neg h2]
        cases wso <;> rfl

/-- The local path records a latency (capped at 20) exactly when a result
is returned. -/
theorem whisper_times (st : LocalState) (env : LocalEnv) :
    (whisper_transcribe_audio st env).2.transcription_times =
      (match (whisper_transcribe_audio st env).1 with
       | some _ => appendCapped st.transcription_times env.latency
       | none => st.transcription_times) := by
  obtain ⟨lo, tro, linfo, lat⟩ := env
  unfold whisper_transcribe_audio
  by_cases h1 : (!st.is_loaded && !lo) = true
  · simp [h1]
  · simp only [h1, Bool.false_eq_true, if_false, if_neg h1]
    cases tro with
    | error e => rfl
    | ok segs =>
      by_cases h2 : segs.isEmpty = true
      · simp only [h2, if_true, if_pos h2]
      · simp only [h2, Bool.false_eq_true, if_false, if_neg h2]
        by_cases h3 : pyStrip (" ".intercalate (segs.map (fun s => pyStrip s.text))) = ""
        · rw [if_pos h3]
        · rw [if_neg h3]

/-- C8 counterexample: on the WebSocket path, with 20 recorded latencies a
successful transcribe call leaves 21 entries — the oldest sample is not
evicted, so the recorded list is NOT a rolling window of at most the 20 most
recent latencies for every backend. -/
theorem claim_C8_counterexample :
    ¬ ((remote_transcribe_audio Protocol.websocket none
        ⟨true, true, List.replicate 20 (1 : Rat)⟩
        ⟨true, Except.ok (), HttpOutcome.timeout, true,
         WsOutcome.response sampleResult, 1⟩).2.transcription_times.length ≤ 20) := by
  decide

/-- C8 (amended): the Local and RemoteHTTP backends keep a rolling window —
after every transcribe call that records a latency, the stored list is the
trim of `old ++ [latency]` to its 20 most recent entries (older samples are
evicted), and `get_performance_stats` averages over exactly the stored
window; the RemoteWebSocket path appends its latency without evicting, so
its list can exceed 20 entries. -/
theorem claim_C8_latency_window :
    (∀ (ts : List Rat) (t : Rat),
      (appendCapped ts t).length = min (ts.length + 1) 20 ∧
      appendCapped ts t = (ts ++ [t]).drop (ts.length + 1 - 20)) ∧
    (∀ (lang : Option String) (st : RemoteState) (env : RemoteEnv),
      (remote_transcribe_audio Protocol.http lang st env).2.transcription_times =
        (match (remote_transcribe_audio Protocol.http lang st env).1 with
         | some _ => appendCapped st.transcription_times env.latency
         | none => st.transcription_times)) ∧
    (∀ (st : LocalState) (env : LocalEnv),
      (whisper_transcribe_audio st env).2.transcription_times =
        (match (whisper_transcribe_audio st env).1 with
         | some _ => appendCapped st.transcription_times env.latency
         | none => st.transcription_times)) ∧
    (∀ (lang : Option String) (st : RemoteState) (env : RemoteEnv),
      (remote_transcribe_audio Protocol.websocket lang st env).2.transcription_times =
        (match (remote_transcribe_audio Protocol.websocket lang st env).1 with
         | some _ => st.transcription_times ++ [env.latency]
         | none => st.transcription_times)) ∧
    (∀ (ts : List Rat) (t : Rat),
      avg_transcription_time (appendCapped ts t) =
        (appendCapped ts t).sum / ((appendCapped ts t).length : Rat)) := by
  refine ⟨fun ts t => ⟨appendCapped_length ts t, appendCapped_eq_drop ts t⟩,
    remote_http_times, whisper_times, remote_ws_times, fun ts t => ?_⟩
  have hne : (appendCapped ts t).isEmpty = false := by
    have := appendCapped_length ts t
    cases hv : appendCapped ts t with
    | nil => rw [hv] at this; simp at this; omega
    | cons a l => rfl
  unfold avg_transcription_time
  rw [hne]
  simp

/-! ## Claim C9: `load_model` idempotence -/

/-- External actions a `load_model` call can perform. -/
inductive LoadAction where
  | healthProbe
  | wsConnect
  | modelLoad
deriving Repr, DecidableEq

/-- What the collaborators would answer during `load_model`: the status of
`GET /health` (or a raised exception), and the result of
`websocket.create_connection` (ok or raised). -/
structure RemoteLoadEnv where
  httpProbe : Except String Nat
  wsProbe : Except String Unit

/-- `RemoteWhisperTranscriber.load_model`: there is no early return on
`is_loaded`, so every call performs the liveness probe for its protocol;
only a 200 health response (HTTP) or a successful connection (WebSocket)
returns `True` and sets `is_loaded`; every failure returns `False` and
leaves the state unchanged. -/
def remote_load_model (proto : Protocol) (st : RemoteState) (env : RemoteLoadEnv) :
    Bool × RemoteState × List LoadAction :=
  match proto with
  | Protocol.http =>
    match env.httpProbe with
    | Except.ok status =>
      if status == 200 then (true, { st with is_loaded := true }, [LoadAction.healthProbe])
      else (false, st, [LoadAction.healthProbe])
    | Except.error _ => (false, st, [LoadAction.healthProbe])
  | Protocol.websocket =>
    match env.wsProbe with
    | Except.ok _ => (true, { st with is_loaded := true }, [LoadAction.wsConnect])
    | Except.error _ => (false, st, [LoadAction.wsConnect])

/-- `WhisperTranscriber.load_model`: `if self.is_loaded: return True` comes
first, so a second call after success does nothing; otherwise the in-process
model load is attempted. -/
def whisper_load_model (st : LocalState) (loadWorks : Bool) :
    Bool × LocalState × List LoadAction :=
  if st.is_loaded then (true, st, [])
  else if loadWorks then (true, { st with is_loaded := true }, [LoadAction.modelLoad])
  else (false, st, [LoadAction.modelLoad])

/-- C9 counterexample: with the remote HTTP backend already loaded
(`is_loaded = true` after a successful first `load_model`), a second
`load_model` call while the server answers 500 performs the liveness probe
again and returns failure — it is neither probe-free nor guaranteed to
return success. -/
theorem claim_C9_counterexample :
    ¬ ((remote_load_model Protocol.http ⟨true, false, []⟩
          ⟨Except.ok 500, Except.ok ()⟩).1 = true ∧
       (remote_load_model Protocol.http ⟨true, false, []⟩
          ⟨Except.ok 500, Except.ok ()⟩).2.2 = []) := by
  decide

/-- C9 (amended): the LOCAL backend's `load_model` is idempotent after
success — called on a loaded transcriber it returns success, changes
nothing, and performs no model load.  The REMOTE backend's `load_model`
always performs its protocol's liveness probe, even when already loaded; it
returns success exactly when the probe succeeds (HTTP 200 / WebSocket
connect), and a prior success is never un-done (`is_loaded` stays true even
when a re-probe fails). -/
theorem claim_C9_load_idempotence :
    (∀ (st : LocalState) (lw : Bool), st.is_loaded = true →
      whisper_load_model st lw = (true, st, [])) ∧
    (∀ (proto : Protocol) (st : RemoteState) (env : RemoteLoadEnv),
      (remote_load_model proto st env).2.2 =
        [match proto with
         | Protocol.http => LoadAction.healthProbe
         | Protocol.websocket => LoadAction.wsConnect]) ∧
    (∀ (st : RemoteState) (s : Nat) (w : Except String Unit),
      (remote_load_model Protocol.http st ⟨Except.ok s, w⟩).1 = (s == 200)) ∧
    (∀ (st : RemoteState) (m : String) (w : Except String Unit),
      (remote_load_model Protocol.http st ⟨Except.error m, w⟩).1 = false) ∧
    (∀ (st : RemoteState) (h : Except String Nat),
      (remote_load_model Protocol.websocket st ⟨h, Except.ok ()⟩).1 = true) ∧
    (∀ (st : RemoteState) (h : Except String Nat) (m : String),
      (remote_load_model Protocol.websocket st ⟨h, Except.error m⟩).1 = false) ∧
    (∀ (proto : Protocol) (st : RemoteState) (env : RemoteLoadEnv),
      (remote_load_model proto st env).2.1.is_loaded =
        (st.is_loaded || (remote_load_model proto st env).1)) := by
  refine ⟨?_, ?_, ?_, ?_, ?_, ?_, ?_⟩
  · intro st lw hl
    unfold whisper_load_model
    rw [if_pos hl]
  · intro proto st env
    cases proto with
    | http =>
      cases hp : env.httpProbe with
      | ok s =>
        by_cases hs : (s == 200) = true <;>
          simp [remote_load_model, hp, hs]
      | error m => simp [remote_load_model, hp]
    | websocket =>
      cases hp : env.wsProbe with
      | ok u => simp [remote_load_model, hp]
      | error m => simp [remote_load_model, hp]
  · intro st s w
    by_cases hs : (s == 200) = true <;>
      simp [remote_load_model, hs]
  · intro st m w
    rfl
  · intro st h
    rfl
  · intro st h m
    rfl
  · intro proto st env
    cases proto with
    | http =>
      cases hp : env.httpProbe with
      | ok s =>
        by_cases hs : (s == 200) = true <;>
          simp [remote_load_model, hp, hs]
      | error m => simp [remote_load_model, hp]
    | websocket =>
      cases hp : env.wsProbe with
      | ok u => simp [remote_load_model, hp]
      | error m => simp [remote_load_model, hp]

/-- Witness for C9 (amended) at a concrete input: a loaded local transcriber,
second load call is a success no-op. -/
theorem claim_C9_load_idempotence_witness :
    ((⟨true, []⟩ : LocalState).is_loaded = true) ∧
    whisper_load_model ⟨true, []⟩ false = (true, ⟨true, []⟩, []) :=
  ⟨rfl, claim_C9_load_idempotence.1 ⟨true, []⟩ false rfl⟩


/-! ## Fan-out: the live-capture loop body of `main` (main.py, lines 275-307)
and the file writer (output/file_writer.py)

The loop body for one yielded `TranscriptionResult` does, in source order:
(1) if a rich display is configured, `display.add_transcription(result)` and
`display.update()`; (2) one `try` block containing BOTH
`file_writer.write_entry(text, confidence=result.confidence)` — with no
`start_time`/`end_time` arguments, so they default to `None` — and
`continuous_writer.write_continuous(text)`, whose `except` logs
"writing to file"; (3) if hooks are enabled, `create_context` then
`execute_hooks` inside their own `try`.  `write_entry` appends the
`TranscriptEntry` to `self.entries` before touching the file handle, so the
entry is recorded even when the file write raises. -/

inductive SinkEvent where
  | displayUpdate
  | timestampedWrite (text : String)
  | continuousWrite (text : String)
  | hookDispatch
  | errorLogged (ctx : String)
deriving Repr, DecidableEq

/-- `TranscriptEntry` from output/file_writer.py. -/
structure TranscriptEntry where
  timestamp : Rat
  text : String
  confidence : Option Rat
  start_time : Option Rat
  end_time : Option Rat
deriving Repr, DecidableEq

structure FanOutCfg where
  displayEnabled : Bool
  hooksEnabled : Bool
deriving Repr, DecidableEq

/-- Which of the two file writes inside the shared `try` block raise. -/
structure FanOutEnv where
  writeEntryRaises : Bool
  writeContinuousRaises : Bool
deriving Repr, DecidableEq

structure PipelineState where
  entries : List TranscriptEntry
  hookManager : HookManager

/-- The entry `write_entry` records for a live result: wall-clock timestamp,
stripped text, confidence, and `None` start/end times. -/
def entryOf (now : Rat) (result : TranscriptionResult) : TranscriptEntry :=
  { timestamp := now, text := pyStrip result.text,
    confidence := some result.confidence, start_time := none, end_time := none }

/-- One iteration of the live fan-out loop; returns the new state and the
ordered trace of sink events performed for this result. -/
def fan_out_step (cfg : FanOutCfg) (env : FanOutEnv) (now : Rat)
    (st : PipelineState) (result : TranscriptionResult) :
    PipelineState × List SinkEvent :=
  if pyStrip result.text = "" then (st, [])
  else
    let text := pyStrip result.text
    let displayEvents := if cfg.displayEnabled then [SinkEvent.displayUpdate] else []
    let entries1 := st.entries ++ [entryOf now result]
    let fileEvents :=
      if env.writeEntryRaises then
        [SinkEvent.errorLogged "writing to file"]
      else if env.writeContinuousRaises then
        [SinkEvent.timestampedWrite text, SinkEvent.errorLogged "writing to file"]
      else
        [SinkEvent.timestampedWrite text, SinkEvent.continuousWrite text]
    if cfg.hooksEnabled then
      let c := create_context st.hookManager result []
      ({ entries := entries1, hookManager := c.2 },
       displayEvents ++ fileEvents ++ [SinkEvent.hookDispatch])
    else
      ({ entries := entries1, hookManager := st.hookManager },
       displayEvents ++ fileEvents)

/-- The whole live session: fold the fan-out step over the stream of yielded
results, accumulating the event trace. -/
def run_live_session (cfg : FanOutCfg) (env : FanOutEnv) (now : Rat)
    (hm0 : HookManager) (results : List TranscriptionResult) :
    PipelineState × List SinkEvent :=
  results.foldl
    (fun acc r =>
      let s := fan_out_step cfg env now acc.1 r
      (s.1, acc.2 ++ s.2))
    ({ entries := [], hookManager := hm0 }, [])

/-- The cue entries `FileWriter.write_srt` emits: entries with both
`start_time` and `end_time` present; all others are skipped. -/
def srt_cues (entries : List TranscriptEntry) : List TranscriptEntry :=
  entries.filter (fun e => e.start_time.isSome && e.end_time.isSome)

/-- The cue entries `FileWriter.write_vtt` emits (same filter as SRT). -/
def vtt_cues (entries : List TranscriptEntry) : List TranscriptEntry :=
  entries.filter (fun e => e.start_time.isSome && e.end_time.isSome)

/-- Shared concrete data for the fan-out counterexamples. -/
def cfgAll : FanOutCfg := { displayEnabled := true, hooksEnabled := true }

def envOk : FanOutEnv := { writeEntryRaises := false, writeContinuousRaises := false }

def envEntryFails : FanOutEnv := { writeEntryRaises := true, writeContinuousRaises := false }

def st0 : PipelineState := { entries := [], hookManager := mkHookManager 0 }

theorem fan_out_step_entries (cfg : FanOutCfg) (env : FanOutEnv) (now : Rat)
    (st : PipelineState) (result : TranscriptionResult) :
    (fan_out_step cfg env now st result).1.entries =
      st.entries ++ (if pyStrip result.text = "" then [] else [entryOf now result]) := by
  unfold fan_out_step
  by_cases hb : pyStrip result.text = ""
  · rw [if_pos hb, if_pos hb]
    simp
  · rw [if_neg hb, if_neg hb]
    by_cases hh : cfg.hooksEnabled = true
    · rw [if_pos hh]
    · rw [if_neg hh]

theorem run_live_session_entries (cfg : FanOutCfg) (env : FanOutEnv) (now : Rat)
    (hm0 : HookManager) (results : List TranscriptionResult) :
    (run_live_session cfg env now hm0 results).1.entries =
      (results.filter (fun r => !(pyStrip r.text == ""))).map (entryOf now) := by
  suffices h : ∀ (acc : PipelineState × List SinkEvent),
      (results.foldl
        (fun acc r =>
          let s := fan_out_step cfg env now acc.1 r
          (s.1, acc.2 ++ s.2)) acc).1.entries =
      acc.1.entries ++ (results.filter (fun r => !(pyStrip r.text == ""))).map (entryOf now) by
    simpa [run_live_session] using h ({ entries := [], hookManager := hm0 }, [])
  induction results with
  | nil => intro acc; simp
  | cons r rs ih =>
    intro acc
    simp only [List.foldl_cons]
    rw [ih]
    have hstep := fan_out_step_entries cfg env now acc.1 r
    by_cases hb : pyStrip r.text = ""
    · simp only [hstep, hb]
      simp [hb]
    · simp only [hstep]
      rw [if_neg hb]
      simp [hb, List.append_assoc]

/-- C10: every live-session transcript entry is recorded with `None` start
and end times, so the SRT and VTT exports written at shutdown contain zero
cue entries, for every session — even though one text entry is written per
non-blank transcription result. -/
theorem claim_C10_empty_subtitles (cfg : FanOutCfg) (env : FanOutEnv) (now : Rat)
    (hm0 : HookManager) (results : List TranscriptionResult) :
    srt_cues (run_live_session cfg env now hm0 results).1.entries = [] ∧
    vtt_cues (run_live_session cfg env now hm0 results).1.entries = [] ∧
    (run_live_session cfg env now hm0 results).1.entries.length =
      (results.filter (fun r => !(pyStrip r.text == ""))).length := by
  have he := run_live_session_entries cfg env now hm0 results
  refine ⟨?_, ?_, ?_⟩
  · rw [srt_cues, he]
    induction (results.filter (fun r => !(pyStrip r.text == ""))) with
    | nil => simp
    | cons r rs ih => simpa [entryOf] using ih
  · rw [vtt_cues, he]
    induction (results.filter (fun r => !(pyStrip r.text == ""))) with
    | nil => simp
    | cons r rs ih => simpa [entryOf] using ih
  · rw [he]
    simp

/-- C2 counterexample: with display and hooks enabled and no sink failing,
the trace for one result is display update first, then the two file writes,
then the hook dispatch — NOT the claimed timestamped → continuous → display
→ hooks order. -/
theorem claim_C2_counterexample :
    (fan_out_step cfgAll envOk 0 st0 sampleResult).2 ≠
      [SinkEvent.timestampedWrite "hello", SinkEvent.continuousWrite "hello",
       SinkEvent.displayUpdate, SinkEvent.hookDispatch] := by
  decide

/-- C2 (amended): with the rich display and hooks enabled and no sink
failing, the sinks run in the fixed order live display update → timestamped
file write → continuous file write → hook dispatch (the display is updated
BEFORE the file writes, not after). -/
theorem claim_C2_sink_order (now : Rat) (st : PipelineState)
    (result : TranscriptionResult) (hne : ¬ pyStrip result.text = "") :
    (fan_out_step { displayEnabled := true, hooksEnabled := true }
        { writeEntryRaises := false, writeContinuousRaises := false }
        now st result).2 =
      [SinkEvent.displayUpdate, SinkEvent.timestampedWrite (pyStrip result.text),
       SinkEvent.continuousWrite (pyStrip result.text), SinkEvent.hookDispatch] := by
  unfold fan_out_step
  rw [if_neg hne]
  rfl

/-- Witness for C2 (amended) at a concrete input. -/
theorem claim_C2_sink_order_witness :
    (¬ pyStrip sampleResult.text = "") ∧
    (fan_out_step { displayEnabled := true, hooksEnabled := true }
        { writeEntryRaises := false, writeContinuousRaises := false }
        0 st0 sampleResult).2 =
      [SinkEvent.displayUpdate, SinkEvent.timestampedWrite (pyStrip sampleResult.text),
       SinkEvent.continuousWrite (pyStrip sampleResult.text), SinkEvent.hookDispatch] :=
  ⟨by decide, claim_C2_sink_order 0 st0 sampleResult (by decide)⟩

/-- C1 counterexample: when the timestamped write raises, the trace contains
no continuous-file write for that result — the two file writes share one
`try` block, so the claimed "continuous-file write still performed" is
false (display update and hook dispatch do survive). -/
theorem claim_C1_counterexample :
    ¬ (SinkEvent.continuousWrite "hello"
         ∈ (fan_out_step cfgAll envEntryFails 0 st0 sampleResult).2 ∧
       SinkEvent.displayUpdate
         ∈ (fan_out_step cfgAll envEntryFails 0 st0 sampleResult).2 ∧
       SinkEvent.hookDispatch
         ∈ (fan_out_step cfgAll envEntryFails 0 st0 sampleResult).2) := by
  decide

/-- C1 (amended): when the timestamped file write raises, the exception is
caught and logged (the loop body completes normally, producing the logged
error in the trace) and the hook dispatch for that result still runs — and
the live display update has already happened, because it precedes the file
writes — but the continuous-file write for that result is SKIPPED, because
both file writes live in the same `try` block; the entry is still recorded
in the in-memory transcript list. -/
theorem claim_C1_file_sink_isolation (now : Rat) (st : PipelineState)
    (result : TranscriptionResult) (contRaises : Bool)
    (hne : ¬ pyStrip result.text = "") :
    (fan_out_step { displayEnabled := true, hooksEnabled := true }
        { writeEntryRaises := true, writeContinuousRaises := contRaises }
        now st result).2 =
      [SinkEvent.displayUpdate, SinkEvent.errorLogged "writing to file",
       SinkEvent.hookDispatch] ∧
    (fan_out_step { displayEnabled := true, hooksEnabled := true }
        { writeEntryRaises := true, writeContinuousRaises := contRaises }
        now st result).1.entries = st.entries ++ [entryOf now result] := by
  constructor
  · unfold fan_out_step
    rw [if_neg hne]
    rfl
  · rw [fan_out_step_entries]
    rw [if_neg hne]

/-- Witness for C1 (amended) at a concrete input. -/
theorem claim_C1_file_sink_isolation_witness :
    (¬ pyStrip sampleResult.text = "") ∧
    ((fan_out_step { displayEnabled := true, hooksEnabled := true }
        { writeEntryRaises := true, writeContinuousRaises := false }
        0 st0 sampleResult).2 =
      [SinkEvent.displayUpdate, SinkEvent.errorLogged "writing to file",
       SinkEvent.hookDispatch] ∧
    (fan_out_step { displayEnabled := true, hooksEnabled := true }
        { writeEntryRaises := true, writeContinuousRaises := false }
        0 st0 sampleResult).1.entries = st0.entries ++ [entryOf 0 sampleResult]) :=
  ⟨by decide, claim_C1_file_sink_isolation 0 st0 sampleResult false (by decide)⟩

end Newear
